import Mathlib

/-!
Shallow embedding of the reviewer-assignment engine of the pull_request_manager
repository (package `service`, file internal/service/service.go), together with
the in-memory semantics of its storage contract (package `postgres`, file
internal/repository/postgres/repo.go) and the error-kind discrimination switch
of the HTTP transport (package `api`).  Machine integers of the Go code are
modelled as `Nat` (all identifiers are SERIAL-generated positive ints and no
arithmetic overflows anywhere in the translated code).
-/

namespace PRM

/-! ## Definitions: the embedded data model, storage semantics and engine -/

/-- Model of the process-wide pseudorandom source `math/rand.Rand`: an infinite
stream of naturals together with a cursor.  A call to `Intn m` consumes one
stream element and reduces it modulo `m`. -/
structure Rng where
  seq : Nat → Nat
  pos : Nat

/-- `rand.Intn(m)`: one draw from the source, uniform over `[0, m)` in the real
generator; the model only keeps the range bound and the state advance. -/
def rngIntn (g : Rng) (m : Nat) : Nat × Rng :=
  (g.seq g.pos % m, ⟨g.seq, g.pos + 1⟩)

/-- `models.User` (id, team_id, name, is_active); timestamps carry no logic and
are dropped. -/
structure User where
  id : Nat
  teamID : Option Nat
  name : String
  isActive : Bool
deriving DecidableEq, Repr

/-- `models.PRStatus`: the two status constants OPEN and MERGED. -/
inductive PRStatus where
  | OPEN
  | MERGED
deriving DecidableEq, Repr

/-- `models.PR` (id, title, author_id, status); timestamp dropped. -/
structure PR where
  id : Nat
  title : String
  authorID : Nat
  status : PRStatus
deriving DecidableEq, Repr

/-- `models.PRWithReviewers`. -/
structure PRWithReviewers where
  pr : PR
  reviewers : List User
deriving DecidableEq, Repr

/-- Default user value, standing for the zero value of the Go struct; only used
for total indexing at positions proved in bounds. -/
def dfltUser : User := { id := 0, teamID := none, name := "", isActive := false }

/-- The slice swap `res[i], res[r] = res[r], res[i]` of the Go sampler. -/
def listSwap (l : List Nat) (i j : Nat) : List Nat :=
  match l[i]?, l[j]? with
  | some a, some b => (l.set i b).set j a
  | _, _ => l

/-- The partial Fisher-Yates loop of `randomSample`: `c` remaining swaps,
current position `i`, pool size `n`. -/
def fyLoop (n : Nat) : Nat → Nat → List Nat → Rng → List Nat × Rng
  | 0, _, res, g => (res, g)
  | c + 1, i, res, g =>
    let (v, g') := rngIntn g (n - i)
    fyLoop n c (i + 1) (listSwap res i (i + v)) g'

/-- `Service.randomSample(n, k)` from internal/service/service.go: if `n ≤ k`
return all indices `0..n-1`; otherwise run `k` partial Fisher-Yates swaps over
the identity permutation and keep the first `k` entries. -/
def randomSample (g : Rng) (n k : Nat) : List Nat × Rng :=
  if n ≤ k then
    (List.range n, g)
  else
    let p := fyLoop n k 0 (List.range n) g
    (p.1.take k, p.2)

/-- In-memory state of the storage: the users, prs and pr_reviewers tables,
plus the next SERIAL value for prs.  Rows of `pr_reviewers` are (pr_id,
user_id) pairs. -/
structure DB where
  users : List User
  prs : List PR
  prReviewers : List (Nat × Nat)
  nextPRID : Nat

/-- Row lookup `SELECT ... FROM users WHERE id=$1`. -/
def findUser (db : DB) (uid : Nat) : Option User :=
  db.users.find? (fun u => u.id == uid)

/-- Row lookup `SELECT ... FROM prs WHERE id=$1`. -/
def findPR (db : DB) (prID : Nat) : Option PR :=
  db.prs.find? (fun p => p.id == prID)

/-- `SELECT ... FROM users WHERE team_id=$1 AND is_active=true`: the active
roster of a team, in table order. -/
def activeInTeam (db : DB) (teamID : Nat) : List User :=
  db.users.filter (fun u => u.teamID == some teamID && u.isActive)

/-- `SELECT u.* FROM users u JOIN pr_reviewers r ON r.user_id = u.id WHERE
r.pr_id=$1`: the persisted reviewer set of a PR. -/
def dbReviewers (db : DB) (prID : Nat) : List User :=
  (db.prReviewers.filter (fun p => p.1 == prID)).filterMap (fun p => findUser db p.2)

/-- `INSERT INTO pr_reviewers ... ON CONFLICT DO NOTHING`: append the pair
unless it is already present. -/
def insertReviewer (db : DB) (prID uid : Nat) : DB :=
  if (prID, uid) ∈ db.prReviewers then db
  else { db with prReviewers := db.prReviewers ++ [(prID, uid)] }

/-- Opaque storage-layer error (the `error` value a repository method
returns). -/
abbrev RepoErr := String

/-- The storage contract `repository.Repository`, restricted to the methods the
three orchestration operations use.  Every method threads an explicit state and
may fail, mirroring the fallible Go interface. -/
structure Repo (σ : Type) where
  getUserByID : σ → Nat → Except RepoErr User × σ
  createPR : σ → PR → Except RepoErr PR × σ
  listActiveUsersInTeam : σ → Nat → Except RepoErr (List User) × σ
  assignReviewers : σ → Nat → List Nat → Except RepoErr Unit × σ
  getReviewersByPR : σ → Nat → Except RepoErr (List User) × σ
  getPRByID : σ → Nat → Except RepoErr PR × σ
  setPRStatus : σ → Nat → PRStatus → Except RepoErr Unit × σ
  replaceReviewer : σ → Nat → Nat → Nat → Except RepoErr Unit × σ

/-- The postgres implementation of the storage contract, as in-memory
semantics of the SQL of internal/repository/postgres/repo.go.  Row lookups
that scan zero rows fail like `pgx.ErrNoRows`; every other operation succeeds
deterministically. -/
def memRepo : Repo DB where
  getUserByID := fun db uid =>
    match findUser db uid with
    | some u => (.ok u, db)
    | none => (.error "get user: no rows in result set", db)
  createPR := fun db pr =>
    let res : PR := { pr with id := db.nextPRID }
    (.ok res, { db with prs := db.prs ++ [res], nextPRID := db.nextPRID + 1 })
  listActiveUsersInTeam := fun db teamID =>
    (.ok (activeInTeam db teamID), db)
  assignReviewers := fun db prID uids =>
    (.ok (), uids.foldl (fun d uid => insertReviewer d prID uid) db)
  getReviewersByPR := fun db prID =>
    (.ok (dbReviewers db prID), db)
  getPRByID := fun db prID =>
    match findPR db prID with
    | some p => (.ok p, db)
    | none => (.error "get PR: no rows in result set", db)
  setPRStatus := fun db prID status =>
    (.ok (), { db with
      prs := db.prs.map (fun p => if p.id == prID then { p with status := status } else p) })
  replaceReviewer := fun db prID oldUserID newUserID =>
    let d1 : DB := { db with
      prReviewers := db.prReviewers.filter (fun p => !(p.1 == prID && p.2 == oldUserID)) }
    (.ok (), insertReviewer d1 prID newUserID)

/-- The sentinel error values of the service package: `ErrNotFound`,
`ErrBadRequest`, `ErrPRMerged`, `ErrNoCandidate`. -/
inductive Sentinel where
  | notFound
  | badRequest
  | prMerged
  | noCandidate
deriving DecidableEq, Repr

/-- The message text of each sentinel, as in `errors.New`. -/
def Sentinel.text : Sentinel → String
  | .notFound => "not found"
  | .badRequest => "bad request"
  | .prMerged => "cannot reassign on merged PR"
  | .noCandidate => "no active replacement candidate in team"

/-- An error returned by a service operation: either a sentinel wrapped with a
context message via `fmt.Errorf("%w: ...", sentinel)`, or a repository error
propagated as-is by `return err`. -/
inductive SvcErr where
  | wrapped (s : Sentinel) (msg : String)
  | storage (e : RepoErr)
deriving DecidableEq, Repr

/-- `err.Error()`: the full rendered message of a service error. -/
def SvcErr.text : SvcErr → String
  | .wrapped s msg => s.text ++ ": " ++ msg
  | .storage e => e

/-- `Service.CreatePR` from internal/service/service.go, generic in the
storage implementation; threads the repository state and the pseudorandom
source explicitly. -/
def svcCreatePR {σ : Type} (r : Repo σ) (st : σ) (g : Rng) (title : String)
    (authorID : Nat) : Except SvcErr PRWithReviewers × σ × Rng :=
  match r.getUserByID st authorID with
  | (.error _, st1) => (.error (.wrapped .badRequest "author not found"), st1, g)
  | (.ok author, st1) =>
    if !author.isActive then
      (.error (.wrapped .badRequest "author is not active"), st1, g)
    else
      match r.createPR st1 { id := 0, title := title, authorID := authorID, status := .OPEN } with
      | (.error e, st2) => (.error (.storage e), st2, g)
      | (.ok pr, st2) =>
        match author.teamID with
        | none => (.ok { pr := pr, reviewers := [] }, st2, g)
        | some teamID =>
          match r.listActiveUsersInTeam st2 teamID with
          | (.error e, st3) => (.error (.storage e), st3, g)
          | (.ok candidates, st3) =>
            let filtered := candidates.filter (fun u => u.id != authorID)
            let count := if filtered.length < 2 then filtered.length else 2
            if count > 0 then
              let idxs := (randomSample g filtered.length count).1
              let g' := (randomSample g filtered.length count).2
              let chosenIDs := idxs.map (fun i => (filtered.getD i dfltUser).id)
              match r.assignReviewers st3 pr.id chosenIDs with
              | (.error e, st4) => (.error (.storage e), st4, g')
              | (.ok _, st4) =>
                match r.getReviewersByPR st4 pr.id with
                | (.error e, st5) => (.error (.storage e), st5, g')
                | (.ok revs, st5) => (.ok { pr := pr, reviewers := revs }, st5, g')
            else
              match r.getReviewersByPR st3 pr.id with
              | (.error e, st4) => (.error (.storage e), st4, g)
              | (.ok revs, st4) => (.ok { pr := pr, reviewers := revs }, st4, g)

/-- `Service.ReassignReviewer` from internal/service/service.go. -/
def svcReassignReviewer {σ : Type} (r : Repo σ) (st : σ) (g : Rng) (prID : Nat)
    (oldUserID : Nat) : Except SvcErr PRWithReviewers × σ × Rng :=
  match r.getPRByID st prID with
  | (.error _, st1) => (.error (.wrapped .badRequest "pr not found"), st1, g)
  | (.ok pr, st1) =>
    if pr.status = .MERGED then
      (.error (.wrapped .prMerged "cannot reassign merged pr"), st1, g)
    else
      match r.getUserByID st1 oldUserID with
      | (.error _, st2) => (.error (.wrapped .badRequest "user not found"), st2, g)
      | (.ok oldUser, st2) =>
        match oldUser.teamID with
        | none => (.error (.wrapped .badRequest "reviewer has no team"), st2, g)
        | some teamID =>
          match r.getReviewersByPR st2 prID with
          | (.error e, st3) => (.error (.storage e), st3, g)
          | (.ok currentReviewers, st3) =>
            if !(currentReviewers.any (fun u => u.id == oldUserID)) then
              (.error (.wrapped .badRequest "reviewer is not assigned to this PR"), st3, g)
            else
              match r.listActiveUsersInTeam st3 teamID with
              | (.error e, st4) => (.error (.storage e), st4, g)
              | (.ok candidates, st4) =>
                let filtered := candidates.filter (fun u =>
                  u.id != pr.authorID && u.id != oldUserID &&
                  !(currentReviewers.any (fun w => w.id == u.id)))
                if filtered.length = 0 then
                  (.error (.wrapped .noCandidate "no active candidates to reassign"), st4, g)
                else
                  let v := (rngIntn g filtered.length).1
                  let g' := (rngIntn g filtered.length).2
                  let newUser := filtered.getD v dfltUser
                  match r.replaceReviewer st4 prID oldUserID newUser.id with
                  | (.error e, st5) => (.error (.storage e), st5, g')
                  | (.ok _, st5) =>
                    match r.getReviewersByPR st5 prID with
                    | (.error e, st6) => (.error (.storage e), st6, g')
                    | (.ok revs, st6) => (.ok { pr := pr, reviewers := revs }, st6, g')

/-- `Service.MergePR` from internal/service/service.go.  In the already-merged
branch the Go code discards the error of `GetReviewersByPR` (`revs, _ := ...`)
and answers with the nil reviewer slice. -/
def svcMergePR {σ : Type} (r : Repo σ) (st : σ) (g : Rng) (prID : Nat) :
    Except SvcErr PRWithReviewers × σ × Rng :=
  match r.getPRByID st prID with
  | (.error _, st1) => (.error (.wrapped .badRequest "pr not found"), st1, g)
  | (.ok pr, st1) =>
    if pr.status = .MERGED then
      match r.getReviewersByPR st1 prID with
      | (.ok revs, st2) => (.ok { pr := pr, reviewers := revs }, st2, g)
      | (.error _, st2) => (.ok { pr := pr, reviewers := [] }, st2, g)
    else if pr.status ≠ .OPEN then
      (.error (.wrapped .badRequest "can only merge OPEN pull requests"), st1, g)
    else
      match r.setPRStatus st1 prID .MERGED with
      | (.error e, st2) => (.error (.storage e), st2, g)
      | (.ok _, st2) =>
        match r.getReviewersByPR st2 prID with
        | (.error e, st3) => (.error (.storage e), st3, g)
        | (.ok revs, st3) =>
          (.ok { pr := { pr with status := .MERGED }, reviewers := revs }, st3, g)

/-- The error-kind discrimination switch of the HTTP transport for the
reassignment operation (package api, handler `reassign`): exact matching on
the full rendered error message selects the response code. -/
def reassignErrorCode (msg : String) : String :=
  if msg = "bad request: cannot reassign merged pr" then "PR_MERGED"
  else if msg = "bad request: no active candidates to reassign" then "NO_CANDIDATE"
  else if msg = "bad request: reviewer is not assigned to this PR" then "NOT_ASSIGNED"
  else if msg = "bad request: pr not found" then "NOT_FOUND"
  else if msg = "bad request: user not found" then "NOT_FOUND"
  else "BAD_REQUEST"

/-- Instrumented storage: memRepo semantics paired with a call trace recording
the name of every contract method invoked.  Used to state which lookups an
operation performs. -/
def logRepo : Repo (DB × List String) where
  getUserByID := fun s uid =>
    ((memRepo.getUserByID s.1 uid).1, ((memRepo.getUserByID s.1 uid).2, s.2 ++ ["GetUserByID"]))
  createPR := fun s pr =>
    ((memRepo.createPR s.1 pr).1, ((memRepo.createPR s.1 pr).2, s.2 ++ ["CreatePR"]))
  listActiveUsersInTeam := fun s teamID =>
    ((memRepo.listActiveUsersInTeam s.1 teamID).1,
      ((memRepo.listActiveUsersInTeam s.1 teamID).2, s.2 ++ ["ListActiveUsersInTeam"]))
  assignReviewers := fun s prID uids =>
    ((memRepo.assignReviewers s.1 prID uids).1,
      ((memRepo.assignReviewers s.1 prID uids).2, s.2 ++ ["AssignReviewers"]))
  getReviewersByPR := fun s prID =>
    ((memRepo.getReviewersByPR s.1 prID).1,
      ((memRepo.getReviewersByPR s.1 prID).2, s.2 ++ ["GetReviewersByPR"]))
  getPRByID := fun s prID =>
    ((memRepo.getPRByID s.1 prID).1, ((memRepo.getPRByID s.1 prID).2, s.2 ++ ["GetPRByID"]))
  setPRStatus := fun s prID status =>
    ((memRepo.setPRStatus s.1 prID status).1,
      ((memRepo.setPRStatus s.1 prID status).2, s.2 ++ ["SetPRStatus"]))
  replaceReviewer := fun s prID oldUserID newUserID =>
    ((memRepo.replaceReviewer s.1 prID oldUserID newUserID).1,
      ((memRepo.replaceReviewer s.1 prID oldUserID newUserID).2, s.2 ++ ["ReplaceReviewer"]))

/-- Well-formedness of the storage state, as enforced by the SQL schema:
primary keys of users and prs are unique, the (pr_id, user_id) primary key of
pr_reviewers is unique, and no row references a pr id the SERIAL counter has
not yet produced. -/
def DB.WF (db : DB) : Prop :=
  (db.users.map User.id).Nodup ∧
  (db.prs.map PR.id).Nodup ∧
  db.prReviewers.Nodup ∧
  (∀ p ∈ db.prs, p.id < db.nextPRID) ∧
  (∀ q ∈ db.prReviewers, q.1 < db.nextPRID)

instance (db : DB) : Decidable db.WF := by
  unfold DB.WF
  infer_instance

/-- The PR row CreatePR persists, with the id the SERIAL counter hands out. -/
def createdPR (db : DB) (title : String) (authorID : Nat) : PR :=
  { id := db.nextPRID, title := title, authorID := authorID, status := .OPEN }

/-- The eligible candidates at creation: the active roster of the team of the
author, minus the author. -/
def eligible (db : DB) (teamID authorID : Nat) : List User :=
  (activeInTeam db teamID).filter (fun u => u.id != authorID)

/-- The target reviewer count: two, capped by the pool size. -/
def createCount (db : DB) (teamID authorID : Nat) : Nat :=
  if (eligible db teamID authorID).length < 2 then (eligible db teamID authorID).length
  else 2

/-- The indices the sampler picks at creation. -/
def createIdxs (db : DB) (g : Rng) (teamID authorID : Nat) : List Nat :=
  (randomSample g (eligible db teamID authorID).length
    (createCount db teamID authorID)).1

/-- The users the sampled indices select from the eligible pool. -/
def chosenUsers (db : DB) (g : Rng) (teamID authorID : Nat) : List User :=
  (createIdxs db g teamID authorID).map
    (fun i => (eligible db teamID authorID).getD i dfltUser)

/-- The pseudorandom source state after the creation sample. -/
def createOutRng (db : DB) (g : Rng) (teamID authorID : Nat) : Rng :=
  (randomSample g (eligible db teamID authorID).length
    (createCount db teamID authorID)).2

/-- The storage state CreatePR leaves behind: the new PR row plus one
assignment row per chosen reviewer. -/
def createOutDB (db : DB) (g : Rng) (title : String) (teamID authorID : Nat) : DB :=
  { db with
    prs := db.prs ++ [createdPR db title authorID],
    prReviewers := db.prReviewers ++
      (chosenUsers db g teamID authorID).map (fun w => (db.nextPRID, w.id)),
    nextPRID := db.nextPRID + 1 }

/-- The replacement pool at reassignment: active teammates of the team of the
old reviewer, minus the author of the PR, the old reviewer, and everyone
already assigned. -/
def reassignPool (db : DB) (prID teamID oldUserID authorID : Nat) : List User :=
  (activeInTeam db teamID).filter (fun u =>
    u.id != authorID && u.id != oldUserID &&
    !((dbReviewers db prID).any (fun w => w.id == u.id)))

/-- The replacement the single pseudorandom draw picks from the pool. -/
def newReviewer (db : DB) (g : Rng) (prID teamID oldUserID authorID : Nat) : User :=
  (reassignPool db prID teamID oldUserID authorID).getD
    ((rngIntn g (reassignPool db prID teamID oldUserID authorID).length).1) dfltUser

/-- The pr_reviewers table after the atomic replace of `ReplaceReviewer`:
every (pr, old) row deleted, the (pr, new) row appended. -/
def replacedDB (db : DB) (prID old nid : Nat) : DB :=
  { db with prReviewers :=
      db.prReviewers.filter (fun p => !(p.1 == prID && p.2 == old)) ++ [(prID, nid)] }

/-- A fixed pseudorandom source state for witnesses. -/
def gZero : Rng := ⟨fun _ => 0, 0⟩

/-- Fixture users: ids 1-4 active in team 1, id 5 inactive in team 1, id 6
active without a team. -/
def uA : User := { id := 1, teamID := some 1, name := "A", isActive := true }

def uB : User := { id := 2, teamID := some 1, name := "B", isActive := true }

def uC : User := { id := 3, teamID := some 1, name := "C", isActive := true }

def uD : User := { id := 4, teamID := some 1, name := "D", isActive := true }

def uE : User := { id := 5, teamID := some 1, name := "E", isActive := false }

def uF : User := { id := 6, teamID := none, name := "F", isActive := true }

/-- Fixture PR 1: open, authored by user 1. -/
def pr1 : PR := { id := 1, title := "one", authorID := 1, status := .OPEN }

/-- Fixture PR 2: merged, authored by user 1. -/
def pr2 : PR := { id := 2, title := "two", authorID := 1, status := .MERGED }

/-- Fixture storage state: both PRs have reviewers 2 and 3. -/
def wDB : DB :=
  { users := [uA, uB, uC, uD, uE, uF], prs := [pr1, pr2],
    prReviewers := [(1, 2), (1, 3), (2, 2), (2, 3)], nextPRID := 3 }

/-- Fixture storage with a small team: users 1, 2, 3 active in team 1, user 5
inactive, and open PR 1 reviewed by users 2 and 3. -/
def sDB : DB :=
  { users := [uA, uB, uC, uE], prs := [pr1], prReviewers := [(1, 2), (1, 3)],
    nextPRID := 2 }

/-- A storage implementation whose reviewer read fails while the PR lookup
returns the merged fixture PR; every other call fails too. -/
def downRepo : Repo Unit where
  getUserByID := fun s _ => (.error "down", s)
  createPR := fun s _ => (.error "down", s)
  listActiveUsersInTeam := fun s _ => (.error "down", s)
  assignReviewers := fun s _ _ => (.error "down", s)
  getReviewersByPR := fun s _ => (.error "down", s)
  getPRByID := fun s _ => (.ok pr2, s)
  setPRStatus := fun s _ _ => (.error "down", s)
  replaceReviewer := fun s _ _ _ => (.error "down", s)

/-- A storage implementation that resolves the author and persists the PR but
fails the teammate listing and the status write. -/
def listDownRepo : Repo Unit where
  getUserByID := fun s _ => (.ok uA, s)
  createPR := fun s pr => (.ok { pr with id := 1 }, s)
  listActiveUsersInTeam := fun s _ => (.error "down", s)
  assignReviewers := fun s _ _ => (.ok (), s)
  getReviewersByPR := fun s _ => (.ok [], s)
  getPRByID := fun s _ => (.ok pr1, s)
  setPRStatus := fun s _ _ => (.error "down", s)
  replaceReviewer := fun s _ _ _ => (.error "down", s)

/-- A storage implementation whose user lookup fails. -/
def userDownRepo : Repo Unit where
  getUserByID := fun s _ => (.error "down", s)
  createPR := fun s pr => (.ok pr, s)
  listActiveUsersInTeam := fun s _ => (.ok [], s)
  assignReviewers := fun s _ _ => (.ok (), s)
  getReviewersByPR := fun s _ => (.ok [], s)
  getPRByID := fun s _ => (.ok pr1, s)
  setPRStatus := fun s _ _ => (.ok (), s)
  replaceReviewer := fun s _ _ _ => (.ok (), s)

/-- A storage implementation sound up to the atomic replace, which fails. -/
def replaceDownRepo : Repo Unit where
  getUserByID := fun s _ => (.ok uB, s)
  createPR := fun s pr => (.ok pr, s)
  listActiveUsersInTeam := fun s _ => (.ok [uA, uB, uC, uD], s)
  assignReviewers := fun s _ _ => (.ok (), s)
  getReviewersByPR := fun s _ => (.ok [uB, uC], s)
  getPRByID := fun s _ => (.ok pr1, s)
  setPRStatus := fun s _ _ => (.ok (), s)
  replaceReviewer := fun s _ _ _ => (.error "down", s)

/-- The candidate filter of CreatePR applied to an arbitrary roster answer of
the storage contract. -/
def filteredPool (cands : List User) (authorID : Nat) : List User :=
  cands.filter (fun u => u.id != authorID)

/-- The target reviewer count of CreatePR over an arbitrary roster answer. -/
def targetCount (cands : List User) (authorID : Nat) : Nat :=
  if (filteredPool cands authorID).length < 2 then (filteredPool cands authorID).length
  else 2

/-- The reviewer ids CreatePR samples from an arbitrary roster answer. -/
def sampledIDs (g : Rng) (cands : List User) (authorID : Nat) : List Nat :=
  ((randomSample g (filteredPool cands authorID).length
      (targetCount cands authorID)).1).map
    (fun i => ((filteredPool cands authorID).getD i dfltUser).id)

/-- The pseudorandom state after the CreatePR sample. -/
def postSampleRng (g : Rng) (cands : List User) (authorID : Nat) : Rng :=
  (randomSample g (filteredPool cands authorID).length
    (targetCount cands authorID)).2

/-- The replacement filter of ReassignReviewer over arbitrary roster and
current-reviewer answers of the storage contract. -/
def replacePool (cands current : List User) (authorID oldUserID : Nat) : List User :=
  cands.filter (fun u => u.id != authorID && u.id != oldUserID &&
    !(current.any (fun w => w.id == u.id)))

/-- The id of the replacement ReassignReviewer draws from that filter. -/
def replacePick (g : Rng) (cands current : List User) (authorID oldUserID : Nat) : Nat :=
  ((replacePool cands current authorID oldUserID).getD
    ((rngIntn g (replacePool cands current authorID oldUserID).length).1) dfltUser).id

/-- A storage implementation that resolves the author, persists the PR and
lists the roster but fails the assignment write. -/
def assignDownRepo : Repo Unit where
  getUserByID := fun s _ => (.ok uA, s)
  createPR := fun s pr => (.ok { pr with id := 1 }, s)
  listActiveUsersInTeam := fun s _ => (.ok [uA, uB, uC, uD], s)
  assignReviewers := fun s _ _ => (.error "down", s)
  getReviewersByPR := fun s _ => (.ok [], s)
  getPRByID := fun s _ => (.ok pr1, s)
  setPRStatus := fun s _ _ => (.ok (), s)
  replaceReviewer := fun s _ _ _ => (.ok (), s)

/-- A storage implementation sound except that every reviewer read fails. -/
def revDownRepo : Repo Unit where
  getUserByID := fun s _ => (.ok uA, s)
  createPR := fun s pr => (.ok { pr with id := 1 }, s)
  listActiveUsersInTeam := fun s _ => (.ok [uA, uB, uC, uD], s)
  assignReviewers := fun s _ _ => (.ok (), s)
  getReviewersByPR := fun s _ => (.error "down", s)
  getPRByID := fun s _ => (.ok pr1, s)
  setPRStatus := fun s _ _ => (.ok (), s)
  replaceReviewer := fun s _ _ _ => (.ok (), s)

/-- A storage implementation whose roster holds only the author and whose
reviewer read fails. -/
def soloTeamRepo : Repo Unit where
  getUserByID := fun s _ => (.ok uA, s)
  createPR := fun s pr => (.ok { pr with id := 1 }, s)
  listActiveUsersInTeam := fun s _ => (.ok [uA], s)
  assignReviewers := fun s _ _ => (.ok (), s)
  getReviewersByPR := fun s _ => (.error "down", s)
  getPRByID := fun s _ => (.ok pr1, s)
  setPRStatus := fun s _ _ => (.ok (), s)
  replaceReviewer := fun s _ _ _ => (.ok (), s)

/-- A storage implementation that reads back reviewers but fails the teammate
listing during reassignment. -/
def reassignListDownRepo : Repo Unit where
  getUserByID := fun s _ => (.ok uB, s)
  createPR := fun s pr => (.ok pr, s)
  listActiveUsersInTeam := fun s _ => (.error "down", s)
  assignReviewers := fun s _ _ => (.ok (), s)
  getReviewersByPR := fun s _ => (.ok [uB, uC], s)
  getPRByID := fun s _ => (.ok pr1, s)
  setPRStatus := fun s _ _ => (.ok (), s)
  replaceReviewer := fun s _ _ _ => (.ok (), s)

/-- A storage implementation over a call counter whose reviewer read succeeds
the first time and fails afterwards, so the re-read after the atomic replace
fails. -/
def flakyRevRepo : Repo Nat where
  getUserByID := fun s _ => (.ok uB, s)
  createPR := fun s pr => (.ok pr, s)
  listActiveUsersInTeam := fun s _ => (.ok [uA, uB, uC, uD], s)
  assignReviewers := fun s _ _ => (.ok (), s)
  getReviewersByPR := fun s _ =>
    (if s = 0 then .ok [uB, uC] else .error "down", s + 1)
  getPRByID := fun s _ => (.ok pr1, s)
  setPRStatus := fun s _ _ => (.ok (), s)
  replaceReviewer := fun s _ _ _ => (.ok (), s)

/-! ## Lemmas and claim theorems -/

/-- Moving an element of a list to the front while writing `x` into its slot is
a permutation of consing `x`. -/
theorem cons_set_perm {α : Type} : ∀ (xs : List α) (m : Nat) (hm : m < xs.length) (x : α),
    (xs[m] :: xs.set m x).Perm (x :: xs)
  | y :: ys, 0, _, x => by
    simpa using List.Perm.swap x y ys
  | y :: ys, m + 1, hm, x => by
    have hm' : m < ys.length := by simpa using Nat.lt_of_succ_lt_succ hm
    have ih := cons_set_perm ys m hm' x
    simp only [List.getElem_cons_succ, List.set_cons_succ]
    exact (List.Perm.swap y ys[m] (ys.set m x)).trans ((ih.cons y).trans (List.Perm.swap x y ys))

/-- Swapping two positions of a list by a double `set` is a permutation. -/
theorem set_set_perm {α : Type} : ∀ (l : List α) (i j : Nat) (hi : i < l.length)
    (hj : j < l.length), ((l.set i l[j]).set j l[i]).Perm l
  | x :: xs, 0, 0, _, _ => by simp
  | x :: xs, 0, j + 1, hi, hj => by
    have hj' : j < xs.length := by simpa using Nat.lt_of_succ_lt_succ hj
    simpa using cons_set_perm xs j hj' x
  | x :: xs, i + 1, 0, hi, hj => by
    have hi' : i < xs.length := by simpa using Nat.lt_of_succ_lt_succ hi
    simpa using cons_set_perm xs i hi' x
  | x :: xs, i + 1, j + 1, hi, hj => by
    have hi' : i < xs.length := by simpa using Nat.lt_of_succ_lt_succ hi
    have hj' : j < xs.length := by simpa using Nat.lt_of_succ_lt_succ hj
    simpa using (set_set_perm xs i j hi' hj').cons x

/-- The slice swap of the sampler is a permutation. -/
theorem listSwap_perm (l : List Nat) (i j : Nat) : (listSwap l i j).Perm l := by
  unfold listSwap
  split
  case h_1 a b h1 h2 =>
    have hi : i < l.length := by
      have := List.getElem?_eq_some.mp h1
      exact this.1
    have hj : j < l.length := by
      have := List.getElem?_eq_some.mp h2
      exact this.1
    have ha : l[i] = a := (List.getElem?_eq_some.mp h1).2
    have hb : l[j] = b := (List.getElem?_eq_some.mp h2).2
    rw [← ha, ← hb]
    exact set_set_perm l i j hi hj
  case h_2 => exact .refl l

/-- The Fisher-Yates loop permutes its accumulator. -/
theorem fyLoop_perm (n : Nat) : ∀ (c i : Nat) (res : List Nat) (g : Rng),
    ((fyLoop n c i res g).1).Perm res
  | 0, _, res, _ => .refl res
  | c + 1, i, res, g => by
    simp only [fyLoop]
    exact (fyLoop_perm n c (i + 1) _ _).trans (listSwap_perm res i _)

/-- The sampled index list: `min n k` entries, no duplicates, all below `n`. -/
theorem randomSample_shape (g : Rng) (n k : Nat) :
    ((randomSample g n k).1).length = min n k ∧ ((randomSample g n k).1).Nodup ∧
      ∀ x ∈ (randomSample g n k).1, x < n := by
  unfold randomSample
  split
  case isTrue h =>
    refine ⟨by simp [Nat.min_eq_left h], by simpa using List.nodup_range n, ?_⟩
    intro x hx
    exact List.mem_range.mp (by simpa using hx)
  case isFalse h =>
    have hk : k ≤ n := Nat.le_of_lt (Nat.lt_of_not_le h)
    have hperm : ((fyLoop n k 0 (List.range n) g).1).Perm (List.range n) :=
      fyLoop_perm n k 0 (List.range n) g
    have hlen : ((fyLoop n k 0 (List.range n) g).1).length = n := by
      simpa using hperm.length_eq
    have hnodup : ((fyLoop n k 0 (List.range n) g).1).Nodup :=
      (hperm.nodup_iff).mpr (List.nodup_range n)
    refine ⟨?_, ?_, ?_⟩
    · simp [hlen, Nat.min_eq_right hk, hk]
    · exact List.Nodup.sublist (List.take_sublist k _) hnodup
    · intro x hx
      have hx' : x ∈ (fyLoop n k 0 (List.range n) g).1 :=
        (List.take_sublist k _).subset (by simpa using hx)
      exact List.mem_range.mp (hperm.mem_iff.mp hx')

/-- When the pool is not larger than the request, the sampler returns the whole
identity permutation and does not touch the pseudorandom source. -/
theorem randomSample_small (g : Rng) (n k : Nat) (h : n ≤ k) :
    randomSample g n k = (List.range n, g) := by
  simp [randomSample, h]

/-- Mapping a sublist keeps images without duplicates. -/
theorem sublist_map_nodup {α β : Type} {l l' : List α} (f : α → β) (h : l'.Sublist l)
    (hn : (l.map f).Nodup) : (l'.map f).Nodup :=
  hn.sublist (h.map f)

/-- With unique user ids, `find?` by the id of a member returns that member. -/
theorem find?_user_eq : ∀ (l : List User), ((l.map User.id).Nodup) →
    ∀ u ∈ l, l.find? (fun w => w.id == u.id) = some u := by
  intro l
  induction l with
  | nil => intro _ u hu; cases hu
  | cons v vs ih =>
    intro hn u hu
    by_cases hveq : v.id = u.id
    · have : u = v := by
        rcases List.mem_cons.mp hu with h | h
        · exact h
        · exfalso
          have : u.id ∈ vs.map User.id := List.mem_map.mpr ⟨u, h, rfl⟩
          rw [← hveq] at this
          exact (List.nodup_cons.mp (by simpa using hn)).1 this
      simp [List.find?_cons, hveq, this]
    · have hu' : u ∈ vs := by
        rcases List.mem_cons.mp hu with h | h
        · exact absurd (by rw [h] : v.id = u.id) hveq
        · exact h
      have := ih (by simpa using (List.nodup_cons.mp (by simpa using hn)).2) u hu'
      simp [List.find?_cons, hveq, this]

/-- Looking up each id of a list of known users resolves to those users. -/
theorem filterMap_find_users (db : DB) (hn : (db.users.map User.id).Nodup) :
    ∀ (ws : List User), (∀ w ∈ ws, w ∈ db.users) →
      ws.filterMap (fun w => findUser db w.id) = ws := by
  intro ws
  induction ws with
  | nil => intro _; rfl
  | cons w ws ih =>
    intro h
    have hw : findUser db w.id = some w :=
      find?_user_eq db.users hn w (h w (List.mem_cons_self w ws))
    simp only [List.filterMap_cons, hw]
    rw [ih (fun x hx => h x (List.mem_cons_of_mem w hx))]

/-- Reading a list back through its indices is the identity. -/
theorem map_getD_range {α : Type} (l : List α) (d : α) :
    (List.range l.length).map (fun i => l.getD i d) = l := by
  apply List.ext_getElem
  · simp
  · intro i h1 h2
    simp only [List.getElem_map, List.getElem_range]
    simp [List.getD_eq_getElem?_getD, List.getElem?_eq_getElem h2]

/-- No pr_reviewers row can mention a pr id the SERIAL counter has not yet
produced. -/
theorem filter_rows_fresh (rows : List (Nat × Nat)) (n : Nat)
    (h : ∀ q ∈ rows, q.1 < n) : rows.filter (fun p => p.1 == n) = [] := by
  apply List.filter_eq_nil_iff.mpr
  intro q hq
  have := h q hq
  simp only [beq_iff_eq]
  omega

/-- The assignment loop `AssignReviewers` appends one fresh row per reviewer
when none of the pairs is present yet. -/
theorem assign_fold_eq (prID : Nat) : ∀ (uids : List Nat) (db : DB), uids.Nodup →
    (∀ u ∈ uids, (prID, u) ∉ db.prReviewers) →
    uids.foldl (fun d uid => insertReviewer d prID uid) db =
      { db with prReviewers := db.prReviewers ++ uids.map (fun u => (prID, u)) } := by
  intro uids
  induction uids with
  | nil => intro db _ _; simp
  | cons u us ih =>
    intro db hnd hmem
    have hu : (prID, u) ∉ db.prReviewers := hmem u (List.mem_cons_self u us)
    have hins : insertReviewer db prID u =
        { db with prReviewers := db.prReviewers ++ [(prID, u)] } := by
      simp [insertReviewer, hu]
    have hnd' : us.Nodup := (List.nodup_cons.mp hnd).2
    have hu' : u ∉ us := (List.nodup_cons.mp hnd).1
    have hmem' : ∀ w ∈ us, (prID, w) ∉ db.prReviewers ++ [(prID, u)] := by
      intro w hw
      simp only [List.mem_append, List.mem_singleton]
      push_neg
      refine ⟨hmem w (List.mem_cons_of_mem u hw), ?_⟩
      intro hcontra
      exact hu' (by
        have : w = u := by simpa using congrArg Prod.snd hcontra
        exact this ▸ hw)
    simp only [List.foldl_cons, hins]
    rw [ih _ hnd' hmem']
    simp

/-- Distinct in-bounds positions of a list with unique ids select users with
distinct ids. -/
theorem map_getD_id_nodup {l : List User} (hl : (l.map User.id).Nodup)
    {idxs : List Nat} (hn : idxs.Nodup) (hb : ∀ i ∈ idxs, i < l.length) :
    (idxs.map (fun i => (l.getD i dfltUser).id)).Nodup := by
  refine List.Nodup.map_on ?_ hn
  intro i hi j hj hij
  have hi' : i < l.length := hb i hi
  have hj' : j < l.length := hb j hj
  rw [List.getD_eq_getElem?_getD, List.getElem?_eq_getElem hi'] at hij
  rw [List.getD_eq_getElem?_getD, List.getElem?_eq_getElem hj'] at hij
  have hi2 : i < (l.map User.id).length := by simpa using hi'
  have hj2 : j < (l.map User.id).length := by simpa using hj'
  have h1 : (l.map User.id).get ⟨i, hi2⟩ = (l.map User.id).get ⟨j, hj2⟩ := by
    simpa using hij
  exact congrArg Fin.val ((List.Nodup.get_inj_iff hl).mp h1)

/-- Every chosen user comes from the eligible pool. -/
theorem chosenUsers_mem (db : DB) (g : Rng) (teamID authorID : Nat) :
    ∀ w ∈ chosenUsers db g teamID authorID, w ∈ eligible db teamID authorID := by
  intro w hw
  obtain ⟨i, hi, rfl⟩ := List.mem_map.mp hw
  have hb : i < (eligible db teamID authorID).length :=
    (randomSample_shape g _ _).2.2 i hi
  rw [List.getD_eq_getElem?_getD, List.getElem?_eq_getElem hb]
  exact List.getElem_mem hb

/-- The eligible pool is a sublist of the users table. -/
theorem eligible_sublist (db : DB) (teamID authorID : Nat) :
    (eligible db teamID authorID).Sublist db.users :=
  ((List.filter_sublist _).trans (List.filter_sublist _))

/-- The ids of the chosen users carry no duplicates. -/
theorem chosenUsers_ids_nodup (db : DB) (g : Rng) (teamID authorID : Nat)
    (hn : (db.users.map User.id).Nodup) :
    ((chosenUsers db g teamID authorID).map User.id).Nodup := by
  have helig : ((eligible db teamID authorID).map User.id).Nodup :=
    sublist_map_nodup User.id (eligible_sublist db teamID authorID) hn
  have hshape := randomSample_shape g (eligible db teamID authorID).length
    (createCount db teamID authorID)
  rw [chosenUsers, List.map_map]
  exact map_getD_id_nodup helig hshape.2.1 hshape.2.2

/-- Re-reading the assignments of the fresh PR from the post-creation state
returns exactly the chosen users. -/
theorem dbReviewers_createOut (db : DB) (g : Rng) (title : String)
    (teamID authorID : Nat) (hUN : (db.users.map User.id).Nodup)
    (hRLt : ∀ q ∈ db.prReviewers, q.1 < db.nextPRID) :
    dbReviewers (createOutDB db g title teamID authorID) db.nextPRID =
      chosenUsers db g teamID authorID := by
  have hmem : ∀ w ∈ chosenUsers db g teamID authorID, w ∈ db.users := fun w hw =>
    (eligible_sublist db teamID authorID).subset (chosenUsers_mem db g teamID authorID w hw)
  have h1 : (createOutDB db g title teamID authorID).prReviewers.filter
      (fun p => p.1 == db.nextPRID) =
      (chosenUsers db g teamID authorID).map (fun w => (db.nextPRID, w.id)) := by
    show (db.prReviewers ++ _).filter _ = _
    rw [List.filter_append, filter_rows_fresh db.prReviewers db.nextPRID hRLt,
      List.nil_append, List.filter_eq_self.mpr]
    intro p hp
    obtain ⟨w, _, rfl⟩ := List.mem_map.mp hp
    simp
  rw [dbReviewers, h1, List.filterMap_map]
  exact filterMap_find_users db hUN _ hmem

/-- Evaluation of CreatePR over the in-memory storage on the success path:
the returned reviewers are the chosen users and the post state carries the new
PR row plus exactly their assignment rows. -/
theorem svcCreatePR_ok (db : DB) (g : Rng) (title : String) (authorID teamID : Nat)
    (author : User) (hWF : db.WF) (hfind : findUser db authorID = some author)
    (hact : author.isActive = true) (hteam : author.teamID = some teamID) :
    svcCreatePR memRepo db g title authorID =
      (.ok { pr := createdPR db title authorID,
             reviewers := chosenUsers db g teamID authorID },
        createOutDB db g title teamID authorID, createOutRng db g teamID authorID) := by
  obtain ⟨hUN, hPN, hRN, hPLt, hRLt⟩ := hWF
  have hfresh : ∀ u ∈ (chosenUsers db g teamID authorID).map User.id,
      (db.nextPRID, u) ∉ db.prReviewers := by
    intro u _ hcontra
    exact absurd (hRLt _ hcontra) (by simp)
  have hids : (createIdxs db g teamID authorID).map
      (fun i => ((eligible db teamID authorID).getD i dfltUser).id) =
      (chosenUsers db g teamID authorID).map User.id := by
    rw [chosenUsers, List.map_map]; rfl
  simp only [svcCreatePR, memRepo, hfind, hact, hteam, Bool.not_true, if_false,
    Bool.false_eq_true]
  have eAT :
      activeInTeam
        { users := db.users,
          prs := db.prs ++ [{ id := db.nextPRID, title := title,
                              authorID := authorID, status := PRStatus.OPEN }],
          prReviewers := db.prReviewers,
          nextPRID := db.nextPRID + 1 } teamID =
      activeInTeam db teamID := rfl
  simp only [eAT]
  simp only [show List.filter (fun u => u.id != authorID) (activeInTeam db teamID) =
    eligible db teamID authorID from rfl]
  simp only [show (if (eligible db teamID authorID).length < 2 then
    (eligible db teamID authorID).length else 2) = createCount db teamID authorID from rfl]
  simp only [show (randomSample g (eligible db teamID authorID).length
    (createCount db teamID authorID)).1 = createIdxs db g teamID authorID from rfl]
  simp only [show (randomSample g (eligible db teamID authorID).length
    (createCount db teamID authorID)).2 = createOutRng db g teamID authorID from rfl]
  simp only [hids]
  by_cases hcnt : 0 < createCount db teamID authorID
  · rw [if_pos hcnt]
    have hfold := assign_fold_eq db.nextPRID
      ((chosenUsers db g teamID authorID).map User.id)
      { users := db.users,
        prs := db.prs ++ [{ id := db.nextPRID, title := title,
                            authorID := authorID, status := PRStatus.OPEN }],
        prReviewers := db.prReviewers,
        nextPRID := db.nextPRID + 1 }
      (chosenUsers_ids_nodup db g teamID authorID hUN) hfresh
    dsimp only at hfold
    rw [show List.map (fun u => (db.nextPRID, u))
        (List.map User.id (chosenUsers db g teamID authorID)) =
        List.map (fun w => (db.nextPRID, w.id)) (chosenUsers db g teamID authorID) from by
      rw [List.map_map]; rfl] at hfold
    rw [hfold]
    rw [show ({ users := db.users,
                prs := db.prs ++ [{ id := db.nextPRID, title := title,
                                    authorID := authorID, status := PRStatus.OPEN }],
                prReviewers := db.prReviewers ++
                  List.map (fun w => (db.nextPRID, w.id))
                    (chosenUsers db g teamID authorID),
                nextPRID := db.nextPRID + 1 } : DB) =
      createOutDB db g title teamID authorID from rfl]
    rw [dbReviewers_createOut db g title teamID authorID hUN hRLt]
    rfl
  · rw [if_neg hcnt]
    have hcnt0 : createCount db teamID authorID = 0 := by omega
    have hlen0 : (eligible db teamID authorID).length = 0 := by
      rw [createCount] at hcnt0
      split at hcnt0
      · exact hcnt0
      · omega
    have hchos : chosenUsers db g teamID authorID = [] := by
      simp [chosenUsers, createIdxs, hlen0, hcnt0, randomSample]
    have houtg : createOutRng db g teamID authorID = g := by
      simp [createOutRng, hlen0, hcnt0, randomSample]
    have hrevs :
        dbReviewers
          { users := db.users,
            prs := db.prs ++ [{ id := db.nextPRID, title := title,
                                authorID := authorID, status := PRStatus.OPEN }],
            prReviewers := db.prReviewers,
            nextPRID := db.nextPRID + 1 } db.nextPRID = [] := by
      show (db.prReviewers.filter (fun p => p.1 == db.nextPRID)).filterMap _ = []
      rw [filter_rows_fresh db.prReviewers db.nextPRID hRLt]
      rfl
    rw [hchos, houtg, hrevs]
    have hdbout0 : createOutDB db g title teamID authorID =
        { users := db.users,
          prs := db.prs ++ [{ id := db.nextPRID, title := title,
                              authorID := authorID, status := PRStatus.OPEN }],
          prReviewers := db.prReviewers,
          nextPRID := db.nextPRID + 1 } := by
      rw [createOutDB, hchos]
      simp [createdPR]
    rw [hdbout0]
    rfl

/-- Unfolding a membership in the persisted reviewer set of a PR. -/
theorem mem_dbReviewers_elim {db : DB} {prID : Nat} {w : User}
    (hw : w ∈ dbReviewers db prID) :
    ∃ p ∈ db.prReviewers, p.1 = prID ∧ p.2 = w.id ∧ findUser db p.2 = some w := by
  obtain ⟨p, hp, hfp⟩ := List.mem_filterMap.mp hw
  have hp' := List.mem_filter.mp hp
  refine ⟨p, hp'.1, by simpa using hp'.2, ?_, hfp⟩
  rw [findUser] at hfp
  have h4 := List.find?_some hfp
  exact (by simpa using h4 : w.id = p.2).symm

/-- A pr_reviewers row whose user resolves puts that user in the read-back
reviewer set. -/
theorem row_mem_dbReviewers {db : DB} {prID uid : Nat} {u : User}
    (hrow : (prID, uid) ∈ db.prReviewers) (hfind : findUser db uid = some u) :
    u ∈ dbReviewers db prID := by
  refine List.mem_filterMap.mpr ⟨(prID, uid), List.mem_filter.mpr ⟨hrow, by simp⟩, hfind⟩

/-- A true `any` over ids yields a member with that id. -/
theorem any_id_elim {l : List User} {old : Nat}
    (h : l.any (fun u => u.id == old) = true) : ∃ w ∈ l, w.id = old := by
  obtain ⟨w, hw, hbeq⟩ := List.any_eq_true.mp h
  exact ⟨w, hw, by simpa using hbeq⟩

/-- If the old reviewer is read back among the reviewers of the PR, then its
row is persisted and its user record resolves. -/
theorem assigned_row {db : DB} {prID old : Nat}
    (h : (dbReviewers db prID).any (fun u => u.id == old) = true) :
    ∃ w, findUser db old = some w ∧ (prID, old) ∈ db.prReviewers := by
  obtain ⟨w, hw, hid⟩ := any_id_elim h
  obtain ⟨p, hp, h1, h2, h3⟩ := mem_dbReviewers_elim hw
  have hpp : p = (prID, old) := by
    cases p
    simp only [Prod.mk.injEq]
    exact ⟨h1, by simp at h2 ⊢; omega⟩
  subst hpp
  exact ⟨w, by simpa [hid] using h3, hp⟩

/-- Filtering the read-back reviewers by id equals reading back the filtered
rows, because the join resolves each row to a user carrying the row id. -/
theorem filterMap_find_filter_comm (db : DB) (old : Nat) : ∀ (l : List (Nat × Nat)),
    (l.filterMap (fun p => findUser db p.2)).filter (fun w => w.id != old) =
      (l.filter (fun p => !(p.2 == old))).filterMap (fun p => findUser db p.2) := by
  intro l
  induction l with
  | nil => rfl
  | cons p ps ih =>
    cases hf : findUser db p.2 with
    | none =>
      by_cases hpo : (p.2 == old) = true
      · simp [List.filterMap_cons, hf, List.filter_cons, hpo, ih]
      · simp [List.filterMap_cons, hf, List.filter_cons,
          (by simpa using hpo : (p.2 == old) = false), ih]
    | some w =>
      have hid : w.id = p.2 := by
        have h4 := List.find?_some (show db.users.find? (fun u => u.id == p.2) = some w by
          rw [← findUser]; exact hf)
        simpa using h4
      by_cases hpo : (p.2 == old) = true
      · have hpo' : p.2 = old := by simpa using hpo
        subst hpo'
        simp [List.filterMap_cons, hf, List.filter_cons, hid, ih]
      · have hpo' : ¬p.2 = old := by simpa using hpo
        simp [List.filterMap_cons, hf, List.filter_cons, hid, hpo', ih]

/-- In a duplicate-free list, filtering by a predicate that exactly one
member satisfies yields that single member. -/
theorem filter_singleton_unique : ∀ {l : List (Nat × Nat)}, l.Nodup →
    ∀ {a : Nat × Nat} {P : Nat × Nat → Bool}, a ∈ l → P a = true →
    (∀ b ∈ l, P b = true → b = a) → l.filter P = [a] := by
  intro l
  induction l with
  | nil => intro _ a P ha; cases ha
  | cons x xs ih =>
    intro hnd a P ha hPa huniq
    rcases List.mem_cons.mp ha with rfl | hax
    · rw [List.filter_cons, if_pos hPa]
      have hnil : xs.filter P = [] := by
        apply List.filter_eq_nil_iff.mpr
        intro b hb
        intro hPb
        have hba : b = a := huniq b (List.mem_cons_of_mem _ hb) hPb
        subst hba
        exact absurd hb (List.nodup_cons.mp hnd).1
      rw [hnil]
    · have hPx : P x = false := by
        by_contra hc
        have hx : P x = true := by simpa using hc
        have : x = a := huniq x (List.mem_cons_self x xs) hx
        subst this
        exact absurd hax (List.nodup_cons.mp hnd).1
      rw [List.filter_cons, if_neg (by simp [hPx])]
      exact ih (List.nodup_cons.mp hnd).2 hax hPa
        (fun b hb hPb => huniq b (List.mem_cons_of_mem x hb) hPb)

/-- Effect of the atomic replace on the read-back reviewer set: the old
reviewer is dropped, the resolved new reviewer is appended, and the total
count is unchanged. -/
theorem dbReviewers_replace (db : DB) (prID old nid : Nat) (newUser : User)
    (hRN : db.prReviewers.Nodup)
    (hassigned : (dbReviewers db prID).any (fun u => u.id == old) = true)
    (hfindnew : findUser db nid = some newUser) :
    dbReviewers (replacedDB db prID old nid) prID =
      (dbReviewers db prID).filter (fun w => w.id != old) ++ [newUser] ∧
    ((dbReviewers db prID).filter (fun w => w.id != old) ++ [newUser]).length =
      (dbReviewers db prID).length := by
  obtain ⟨wOld, hfOld, hrowOld⟩ := assigned_row hassigned
  have hmemPR : (prID, old) ∈ db.prReviewers.filter (fun p => p.1 == prID) :=
    List.mem_filter.mpr ⟨hrowOld, by simp⟩
  have hRPN : (db.prReviewers.filter (fun p => p.1 == prID)).Nodup := hRN.filter _
  have hsingle : (db.prReviewers.filter (fun p => p.1 == prID)).filter
      (fun p => p.2 == old) = [(prID, old)] := by
    apply filter_singleton_unique hRPN hmemPR (by simp)
    intro b hb hPb
    have hb1 : (b.1 == prID) = true := (List.mem_filter.mp hb).2
    cases b with
    | mk b1 b2 =>
      simp only [Prod.mk.injEq]
      constructor
      · simpa using hb1
      · simpa using hPb
  have hsplit := List.filter_append_perm (fun p => p.2 == old)
    (db.prReviewers.filter (fun p => p.1 == prID))
  have hrows : (replacedDB db prID old nid).prReviewers.filter (fun p => p.1 == prID) =
      (db.prReviewers.filter (fun p => p.1 == prID)).filter (fun p => !(p.2 == old)) ++
        [(prID, nid)] := by
    show (db.prReviewers.filter (fun p => !(p.1 == prID && p.2 == old)) ++
      [(prID, nid)]).filter (fun p => p.1 == prID) = _
    rw [List.filter_append, List.filter_filter, List.filter_filter]
    congr 1
    · apply List.filter_congr
      intro b _
      by_cases hb : (b.1 == prID) = true
      · simp [hb]
      · simp [(by simpa using hb : (b.1 == prID) = false)]
    · simp
  have hlen1 : (dbReviewers db prID).length =
      1 + (((db.prReviewers.filter (fun p => p.1 == prID)).filter
        (fun p => !(p.2 == old))).filterMap (fun p => findUser db p.2)).length := by
    rw [dbReviewers, ((hsplit.symm).filterMap (fun p => findUser db p.2)).length_eq]
    rw [List.filterMap_append, hsingle]
    simp [List.filterMap_cons, hfOld, Nat.add_comm]
  have hfilt : (dbReviewers db prID).filter (fun w => w.id != old) =
      ((db.prReviewers.filter (fun p => p.1 == prID)).filter
        (fun p => !(p.2 == old))).filterMap (fun p => findUser db p.2) := by
    rw [dbReviewers, filterMap_find_filter_comm db old]
  have hpart1 : dbReviewers (replacedDB db prID old nid) prID =
      (dbReviewers db prID).filter (fun w => w.id != old) ++ [newUser] := by
    show ((replacedDB db prID old nid).prReviewers.filter
      (fun p => p.1 == prID)).filterMap (fun p => findUser db p.2) = _
    rw [hrows, List.filterMap_append, ← hfilt]
    simp [List.filterMap_cons, hfindnew]
  refine ⟨hpart1, ?_⟩
  rw [List.length_append, hfilt, hlen1]
  simp [Nat.add_comm]

/-- The drawn replacement is a member of the pool. -/
theorem newReviewer_mem (db : DB) (g : Rng) (prID teamID oldUserID authorID : Nat)
    (h : reassignPool db prID teamID oldUserID authorID ≠ []) :
    newReviewer db g prID teamID oldUserID authorID ∈
      reassignPool db prID teamID oldUserID authorID := by
  have hlen : 0 < (reassignPool db prID teamID oldUserID authorID).length :=
    List.length_pos.mpr h
  have hv : (rngIntn g (reassignPool db prID teamID oldUserID authorID).length).1 <
      (reassignPool db prID teamID oldUserID authorID).length :=
    Nat.mod_lt _ hlen
  rw [newReviewer, List.getD_eq_getElem?_getD, List.getElem?_eq_getElem hv]
  exact List.getElem_mem hv

/-- What membership in the replacement pool guarantees. -/
theorem pool_facts (db : DB) (prID teamID oldUserID authorID : Nat) {u : User}
    (hu : u ∈ reassignPool db prID teamID oldUserID authorID) :
    u ∈ db.users ∧ u.id ≠ authorID ∧ u.id ≠ oldUserID ∧
      ((dbReviewers db prID).any (fun w => w.id == u.id)) = false := by
  have h1 := List.mem_filter.mp hu
  have h2 := List.mem_filter.mp h1.1
  refine ⟨h2.1, ?_⟩
  have h3 := h1.2
  simp only [Bool.and_eq_true, bne_iff_ne, Bool.not_eq_true'] at h3
  exact ⟨h3.1.1, h3.1.2, h3.2⟩

/-- Evaluation of ReassignReviewer over the in-memory storage on the success
path: the atomic replace fires once and the returned reviewers are the
re-read of the replaced state. -/
theorem svcReassignReviewer_ok (db : DB) (g : Rng) (prID oldUserID teamID : Nat)
    (pr : PR) (oldUser : User) (hWF : db.WF)
    (hfind : findPR db prID = some pr) (hst : pr.status = .OPEN)
    (huser : findUser db oldUserID = some oldUser)
    (hteam : oldUser.teamID = some teamID)
    (hassigned : (dbReviewers db prID).any (fun u => u.id == oldUserID) = true)
    (hpool : reassignPool db prID teamID oldUserID pr.authorID ≠ []) :
    svcReassignReviewer memRepo db g prID oldUserID =
      (.ok { pr := pr,
             reviewers := dbReviewers (replacedDB db prID oldUserID
               (newReviewer db g prID teamID oldUserID pr.authorID).id) prID },
        replacedDB db prID oldUserID
          (newReviewer db g prID teamID oldUserID pr.authorID).id,
        (rngIntn g (reassignPool db prID teamID oldUserID pr.authorID).length).2) := by
  have hmemnew := newReviewer_mem db g prID teamID oldUserID pr.authorID hpool
  have hfacts := pool_facts db prID teamID oldUserID pr.authorID hmemnew
  have hfindnew : findUser db (newReviewer db g prID teamID oldUserID pr.authorID).id =
      some (newReviewer db g prID teamID oldUserID pr.authorID) :=
    find?_user_eq db.users hWF.1 _ hfacts.1
  have hnotrow : (prID, (newReviewer db g prID teamID oldUserID pr.authorID).id) ∉
      db.prReviewers.filter (fun p => !(p.1 == prID && p.2 == oldUserID)) := by
    intro hmem
    have hrow := (List.mem_filter.mp hmem).1
    have hin := row_mem_dbReviewers hrow hfindnew
    have : (dbReviewers db prID).any
        (fun w => w.id == (newReviewer db g prID teamID oldUserID pr.authorID).id) =
        true :=
      List.any_eq_true.mpr ⟨_, hin, by simp⟩
    rw [hfacts.2.2.2] at this
    exact Bool.false_ne_true this
  have hlen0 : ¬((reassignPool db prID teamID oldUserID pr.authorID).length = 0) := by
    intro hc
    exact hpool (List.length_eq_zero.mp hc)
  simp only [svcReassignReviewer, memRepo, hfind, hst, huser, hteam, hassigned]
  simp only [show ((activeInTeam db teamID).filter (fun u =>
    u.id != pr.authorID && u.id != oldUserID &&
    !((dbReviewers db prID).any (fun w => w.id == u.id)))) =
    reassignPool db prID teamID oldUserID pr.authorID from rfl]
  rw [if_neg (by simp)]
  rw [if_neg hlen0]
  simp only [show (reassignPool db prID teamID oldUserID pr.authorID).getD
    ((rngIntn g (reassignPool db prID teamID oldUserID pr.authorID).length).1) dfltUser =
    newReviewer db g prID teamID oldUserID pr.authorID from rfl]
  simp only [insertReviewer, hnotrow, if_false]
  rfl

/-- C1: a successful CreatePR whose author is active and belongs to a team
returns exactly min(2, c) reviewers, where c is the number of eligible
teammates (active users of the team of the author, other than the author);
none of them is the author, all are active members of that team, none repeats,
and the returned list is exactly the re-read persisted assignment set of the
new PR in the post state. -/
theorem createPR_reviewer_contract (db : DB) (g : Rng) (title : String)
    (authorID teamID : Nat) (author : User) (hWF : db.WF)
    (hfind : findUser db authorID = some author) (hact : author.isActive = true)
    (hteam : author.teamID = some teamID) :
    svcCreatePR memRepo db g title authorID =
      (.ok { pr := createdPR db title authorID,
             reviewers := chosenUsers db g teamID authorID },
        createOutDB db g title teamID authorID, createOutRng db g teamID authorID) ∧
    (chosenUsers db g teamID authorID).length =
      min 2 (eligible db teamID authorID).length ∧
    (∀ w ∈ chosenUsers db g teamID authorID,
      w.id ≠ authorID ∧ w.isActive = true ∧ w.teamID = some teamID) ∧
    ((chosenUsers db g teamID authorID).map User.id).Nodup ∧
    dbReviewers (createOutDB db g title teamID authorID) db.nextPRID =
      chosenUsers db g teamID authorID := by
  refine ⟨svcCreatePR_ok db g title authorID teamID author hWF hfind hact hteam,
    ?_, ?_, chosenUsers_ids_nodup db g teamID authorID hWF.1,
    dbReviewers_createOut db g title teamID authorID hWF.1 hWF.2.2.2.2⟩
  · rw [chosenUsers, List.length_map, createIdxs,
      (randomSample_shape g (eligible db teamID authorID).length
        (createCount db teamID authorID)).1, createCount]
    split <;> omega
  · intro w hw
    have hmem := chosenUsers_mem db g teamID authorID w hw
    rw [eligible, activeInTeam] at hmem
    simp only [List.mem_filter, Bool.and_eq_true, beq_iff_eq, bne_iff_ne] at hmem
    exact ⟨hmem.2, hmem.1.2.2, hmem.1.2.1⟩

/-- C1 witness: fixture user 1 authors a PR in a team with three eligible
teammates. -/
theorem createPR_reviewer_contract_witness :
    svcCreatePR memRepo wDB gZero "w" 1 =
      (.ok { pr := createdPR wDB "w" 1,
             reviewers := chosenUsers wDB gZero 1 1 },
        createOutDB wDB gZero "w" 1 1, createOutRng wDB gZero 1 1) ∧
    (chosenUsers wDB gZero 1 1).length = min 2 (eligible wDB 1 1).length ∧
    (∀ w ∈ chosenUsers wDB gZero 1 1,
      w.id ≠ 1 ∧ w.isActive = true ∧ w.teamID = some 1) ∧
    ((chosenUsers wDB gZero 1 1).map User.id).Nodup ∧
    dbReviewers (createOutDB wDB gZero "w" 1 1) wDB.nextPRID =
      chosenUsers wDB gZero 1 1 :=
  createPR_reviewer_contract wDB gZero "w" 1 1 uA (by decide) (by decide) rfl rfl

/-- C3: the sampler returns min(n, k) indices, all distinct, all inside
[0, n), for every pool size n and request k; and with the pseudorandom source
in a fixed state, identical inputs give identical output. -/
theorem randomSample_spec (g : Rng) (n k : Nat) :
    ((randomSample g n k).1).length = min n k ∧
    ((randomSample g n k).1).Nodup ∧
    (∀ x ∈ (randomSample g n k).1, x < n) ∧
    ∀ g' : Rng, g' = g → randomSample g' n k = randomSample g n k := by
  refine ⟨(randomSample_shape g n k).1, (randomSample_shape g n k).2.1,
    (randomSample_shape g n k).2.2, ?_⟩
  intro g' h
  rw [h]

/-- C3 witness: the sampler at pool size 5, request 2, with the all-zero
source. -/
theorem randomSample_spec_witness :
    ((randomSample gZero 5 2).1).length = min 5 2 ∧
    ((randomSample gZero 5 2).1).Nodup ∧
    (∀ x ∈ (randomSample gZero 5 2).1, x < 5) ∧
    randomSample gZero 5 2 = randomSample gZero 5 2 :=
  ⟨(randomSample_spec gZero 5 2).1, (randomSample_spec gZero 5 2).2.1,
    (randomSample_spec gZero 5 2).2.2.1, (randomSample_spec gZero 5 2).2.2.2 gZero rfl⟩

/-- C10: whenever the pool size is at most the request, the sampler returns
the identity index list 0..n-1 and leaves the pseudorandom source untouched;
consequently a CreatePR whose author has at most two eligible teammates
assigns exactly all of them, in roster order, with the source returned
unchanged. -/
theorem small_pool_assigns_all (db : DB) (g : Rng) (title : String)
    (authorID teamID : Nat) (author : User) (hWF : db.WF)
    (hfind : findUser db authorID = some author) (hact : author.isActive = true)
    (hteam : author.teamID = some teamID)
    (hsmall : (eligible db teamID authorID).length ≤ 2) :
    (∀ (g' : Rng) (n k : Nat), n ≤ k → randomSample g' n k = (List.range n, g')) ∧
    chosenUsers db g teamID authorID = eligible db teamID authorID ∧
    svcCreatePR memRepo db g title authorID =
      (.ok { pr := createdPR db title authorID,
             reviewers := eligible db teamID authorID },
        createOutDB db g title teamID authorID, g) := by
  have hcnt : createCount db teamID authorID = (eligible db teamID authorID).length := by
    rw [createCount]
    split <;> omega
  have hidx : createIdxs db g teamID authorID =
      List.range (eligible db teamID authorID).length := by
    rw [createIdxs, hcnt, randomSample_small g _ _ (le_refl _)]
  have hch : chosenUsers db g teamID authorID = eligible db teamID authorID := by
    rw [chosenUsers, hidx, map_getD_range]
  have hrng : createOutRng db g teamID authorID = g := by
    rw [createOutRng, hcnt, randomSample_small g _ _ (le_refl _)]
  refine ⟨randomSample_small, hch, ?_⟩
  rw [svcCreatePR_ok db g title authorID teamID author hWF hfind hact hteam, hch, hrng]

/-- C10 witness: fixture user 1 authors a PR in a team with exactly two
eligible teammates, users 2 and 3. -/
theorem small_pool_assigns_all_witness :
    (∀ (g' : Rng) (n k : Nat), n ≤ k → randomSample g' n k = (List.range n, g')) ∧
    chosenUsers sDB gZero 1 1 = eligible sDB 1 1 ∧
    svcCreatePR memRepo sDB gZero "s" 1 =
      (.ok { pr := createdPR sDB "s" 1, reviewers := eligible sDB 1 1 },
        createOutDB sDB gZero "s" 1 1, gZero) :=
  small_pool_assigns_all sDB gZero "s" 1 1 uA (by decide) (by decide) rfl rfl
    (by decide)

/-- C2: a successful ReassignReviewer keeps the total reviewer count of the
PR unchanged: the named old reviewer is removed, exactly one fresh replacement
is appended, and the whole replace is a single state transition (the model of
the SQL transaction of ReplaceReviewer), so no intermediate state with the old
reviewer removed but no replacement added, or with both present, exists. -/
theorem reassign_preserves_reviewer_count (db : DB) (g : Rng)
    (prID oldUserID teamID : Nat) (pr : PR) (oldUser : User) (hWF : db.WF)
    (hfind : findPR db prID = some pr) (hst : pr.status = .OPEN)
    (huser : findUser db oldUserID = some oldUser)
    (hteam : oldUser.teamID = some teamID)
    (hassigned : (dbReviewers db prID).any (fun u => u.id == oldUserID) = true)
    (hpool : reassignPool db prID teamID oldUserID pr.authorID ≠ []) :
    ∃ newUser : User,
      svcReassignReviewer memRepo db g prID oldUserID =
        (.ok { pr := pr, reviewers :=
            (dbReviewers db prID).filter (fun w => w.id != oldUserID) ++ [newUser] },
          replacedDB db prID oldUserID newUser.id,
          (rngIntn g (reassignPool db prID teamID oldUserID pr.authorID).length).2) ∧
      ((dbReviewers db prID).filter (fun w => w.id != oldUserID) ++ [newUser]).length =
        (dbReviewers db prID).length ∧
      newUser.id ≠ oldUserID ∧
      (∀ w ∈ dbReviewers db prID, w.id ≠ newUser.id) := by
  refine ⟨newReviewer db g prID teamID oldUserID pr.authorID, ?_, ?_, ?_, ?_⟩
  · have heq := svcReassignReviewer_ok db g prID oldUserID teamID pr oldUser hWF
      hfind hst huser hteam hassigned hpool
    rw [heq]
    have hfindnew : findUser db (newReviewer db g prID teamID oldUserID pr.authorID).id =
        some (newReviewer db g prID teamID oldUserID pr.authorID) :=
      find?_user_eq db.users hWF.1 _
        (pool_facts db prID teamID oldUserID pr.authorID
          (newReviewer_mem db g prID teamID oldUserID pr.authorID hpool)).1
    rw [(dbReviewers_replace db prID oldUserID _ _ hWF.2.2.1 hassigned hfindnew).1]
  · have hfindnew : findUser db (newReviewer db g prID teamID oldUserID pr.authorID).id =
        some (newReviewer db g prID teamID oldUserID pr.authorID) :=
      find?_user_eq db.users hWF.1 _
        (pool_facts db prID teamID oldUserID pr.authorID
          (newReviewer_mem db g prID teamID oldUserID pr.authorID hpool)).1
    exact (dbReviewers_replace db prID oldUserID _ _ hWF.2.2.1 hassigned hfindnew).2
  · exact (pool_facts db prID teamID oldUserID pr.authorID
      (newReviewer_mem db g prID teamID oldUserID pr.authorID hpool)).2.2.1
  · intro w hw hc
    have hfalse := (pool_facts db prID teamID oldUserID pr.authorID
      (newReviewer_mem db g prID teamID oldUserID pr.authorID hpool)).2.2.2
    have : (dbReviewers db prID).any
        (fun v => v.id == (newReviewer db g prID teamID oldUserID pr.authorID).id) =
        true := List.any_eq_true.mpr ⟨w, hw, by simp [hc]⟩
    rw [hfalse] at this
    exact Bool.false_ne_true this

/-- C2 witness: replacing reviewer 2 on fixture PR 1 in the fixture storage,
where user 4 is the only eligible replacement. -/
theorem reassign_preserves_reviewer_count_witness :
    ∃ newUser : User,
      svcReassignReviewer memRepo wDB gZero 1 2 =
        (.ok { pr := pr1, reviewers :=
            (dbReviewers wDB 1).filter (fun w => w.id != 2) ++ [newUser] },
          replacedDB wDB 1 2 newUser.id,
          (rngIntn gZero (reassignPool wDB 1 1 2 pr1.authorID).length).2) ∧
      ((dbReviewers wDB 1).filter (fun w => w.id != 2) ++ [newUser]).length =
        (dbReviewers wDB 1).length ∧
      newUser.id ≠ 2 ∧
      (∀ w ∈ dbReviewers wDB 1, w.id ≠ newUser.id) :=
  reassign_preserves_reviewer_count wDB gZero 1 2 1 pr1 uB (by decide) (by decide)
    rfl (by decide) rfl (by decide) (by decide)

/-- C4: reassignment on a PR whose status is MERGED fails with the PRMerged
sentinel, which is a different error kind from the generic BadRequest
sentinel, and returns the storage state and pseudorandom source untouched, so
the assignments of the PR are unchanged. -/
theorem reassign_merged_fails_prMerged (db : DB) (g : Rng) (prID oldUserID : Nat)
    (pr : PR) (hfind : findPR db prID = some pr) (hst : pr.status = .MERGED) :
    svcReassignReviewer memRepo db g prID oldUserID =
      (.error (.wrapped .prMerged "cannot reassign merged pr"), db, g) ∧
    Sentinel.prMerged ≠ Sentinel.badRequest := by
  refine ⟨?_, by decide⟩
  simp [svcReassignReviewer, memRepo, hfind, hst]

/-- C4 witness: the merged fixture PR. -/
theorem reassign_merged_fails_prMerged_witness :
    svcReassignReviewer memRepo wDB gZero 2 2 =
      (.error (.wrapped .prMerged "cannot reassign merged pr"), wDB, gZero) ∧
    Sentinel.prMerged ≠ Sentinel.badRequest :=
  reassign_merged_fails_prMerged wDB gZero 2 2 pr2 (by decide) rfl

/-- C5: merging an already-MERGED PR succeeds without any storage mutation,
returning the current status and the currently persisted reviewer set, and a
repeated call returns the identical result. -/
theorem mergePR_idempotent (db : DB) (g : Rng) (prID : Nat) (pr : PR)
    (hfind : findPR db prID = some pr) (hst : pr.status = .MERGED) :
    svcMergePR memRepo db g prID =
      (.ok { pr := pr, reviewers := dbReviewers db prID }, db, g) ∧
    svcMergePR memRepo (svcMergePR memRepo db g prID).2.1
        (svcMergePR memRepo db g prID).2.2 prID = svcMergePR memRepo db g prID := by
  have h1 : svcMergePR memRepo db g prID =
      (.ok { pr := pr, reviewers := dbReviewers db prID }, db, g) := by
    simp [svcMergePR, memRepo, hfind, hst]
  exact ⟨h1, by simp [h1]⟩

/-- C5 witness: the merged fixture PR. -/
theorem mergePR_idempotent_witness :
    svcMergePR memRepo wDB gZero 2 =
      (.ok { pr := pr2, reviewers := dbReviewers wDB 2 }, wDB, gZero) ∧
    svcMergePR memRepo (svcMergePR memRepo wDB gZero 2).2.1
        (svcMergePR memRepo wDB gZero 2).2.2 2 = svcMergePR memRepo wDB gZero 2 :=
  mergePR_idempotent wDB gZero 2 pr2 (by decide) rfl

/-- C7: when the eligibility-filtered replacement pool (active teammates of
the team of the old reviewer, excluding the author of the PR, the old reviewer
and every currently assigned reviewer) is empty, reassignment fails with the
NoCandidate sentinel and the storage state is returned untouched, so the old
reviewer remains assigned. -/
theorem reassign_no_candidate (db : DB) (g : Rng) (prID oldUserID teamID : Nat)
    (pr : PR) (oldUser : User)
    (hfind : findPR db prID = some pr) (hst : pr.status = .OPEN)
    (huser : findUser db oldUserID = some oldUser)
    (hteam : oldUser.teamID = some teamID)
    (hassigned : (dbReviewers db prID).any (fun u => u.id == oldUserID) = true)
    (hempty : (activeInTeam db teamID).filter (fun u =>
        u.id != pr.authorID && u.id != oldUserID &&
        !((dbReviewers db prID).any (fun w => w.id == u.id))) = []) :
    svcReassignReviewer memRepo db g prID oldUserID =
      (.error (.wrapped .noCandidate "no active candidates to reassign"), db, g) := by
  simp [svcReassignReviewer, memRepo, hfind, hst, huser, hteam, hassigned, hempty]

/-- C7 witness: PR 1 with reviewers 2 and 3 in a team whose only other active
member is the author, so the pool for replacing reviewer 2 is empty once 4 is
also assigned; here we shrink to a state where users 1, 2, 3 are the whole
active team. -/
theorem reassign_no_candidate_witness :
    svcReassignReviewer memRepo
      { users := [uA, uB, uC, uE], prs := [pr1], prReviewers := [(1, 2), (1, 3)],
        nextPRID := 2 } gZero 1 2 =
      (.error (.wrapped .noCandidate "no active candidates to reassign"),
        { users := [uA, uB, uC, uE], prs := [pr1], prReviewers := [(1, 2), (1, 3)],
          nextPRID := 2 }, gZero) :=
  reassign_no_candidate _ gZero 1 2 1 pr1 uB (by decide) rfl (by decide) rfl
    (by decide) (by decide)

/-- C8: when the named old reviewer is not currently among the reviewers of
the PR, reassignment always fails and performs no mutation; the failure
carries the message that the transport discrimination switch maps to the
distinct NOT_ASSIGNED kind rather than the generic BAD_REQUEST kind.  In the
engine the error value wraps the generic BadRequest sentinel; the NotAssigned
kind is realized by the exact message text, which is what the transport
discriminates on. -/
theorem reassign_not_assigned_kind (db : DB) (g : Rng) (prID oldUserID teamID : Nat)
    (pr : PR) (oldUser : User)
    (hfind : findPR db prID = some pr) (hst : pr.status = .OPEN)
    (huser : findUser db oldUserID = some oldUser)
    (hteam : oldUser.teamID = some teamID)
    (hnot : (dbReviewers db prID).any (fun u => u.id == oldUserID) = false) :
    svcReassignReviewer memRepo db g prID oldUserID =
      (.error (.wrapped .badRequest "reviewer is not assigned to this PR"), db, g) ∧
    reassignErrorCode
        ((SvcErr.wrapped .badRequest "reviewer is not assigned to this PR").text) =
      "NOT_ASSIGNED" ∧
    "NOT_ASSIGNED" ≠ "BAD_REQUEST" := by
  refine ⟨?_, by decide, by decide⟩
  simp [svcReassignReviewer, memRepo, hfind, hst, huser, hteam, hnot]

/-- C8 witness: user 4 has a team but is not a reviewer of open fixture
PR 1. -/
theorem reassign_not_assigned_kind_witness :
    svcReassignReviewer memRepo wDB gZero 1 4 =
      (.error (.wrapped .badRequest "reviewer is not assigned to this PR"), wDB, gZero) ∧
    reassignErrorCode
        ((SvcErr.wrapped .badRequest "reviewer is not assigned to this PR").text) =
      "NOT_ASSIGNED" ∧
    "NOT_ASSIGNED" ≠ "BAD_REQUEST" :=
  reassign_not_assigned_kind wDB gZero 1 4 1 pr1 uD (by decide) rfl (by decide) rfl
    (by decide)

/-- C6: a successful CreatePR whose author has no team returns the freshly
persisted PR with exactly zero reviewers, mutates nothing but the prs table,
and performs no candidate lookup and no assignment write: the instrumented
call trace is exactly the author lookup followed by the PR insert, so
ListActiveUsersInTeam and AssignReviewers are never invoked. -/
theorem createPR_no_team_short_circuit (db : DB) (g : Rng) (title : String)
    (authorID : Nat) (author : User)
    (hfind : findUser db authorID = some author) (hact : author.isActive = true)
    (hteam : author.teamID = none) :
    svcCreatePR logRepo (db, []) g title authorID =
      (.ok { pr := { id := db.nextPRID, title := title, authorID := authorID,
                     status := .OPEN },
             reviewers := [] },
        ({ db with
            prs := db.prs ++ [{ id := db.nextPRID, title := title,
                                authorID := authorID, status := .OPEN }],
            nextPRID := db.nextPRID + 1 },
          ["GetUserByID", "CreatePR"]), g) ∧
    "ListActiveUsersInTeam" ∉ (svcCreatePR logRepo (db, []) g title authorID).2.1.2 ∧
    "AssignReviewers" ∉ (svcCreatePR logRepo (db, []) g title authorID).2.1.2 := by
  have h1 : svcCreatePR logRepo (db, []) g title authorID =
      (.ok { pr := { id := db.nextPRID, title := title, authorID := authorID,
                     status := .OPEN },
             reviewers := [] },
        ({ db with
            prs := db.prs ++ [{ id := db.nextPRID, title := title,
                                authorID := authorID, status := .OPEN }],
            nextPRID := db.nextPRID + 1 },
          ["GetUserByID", "CreatePR"]), g) := by
    simp [svcCreatePR, logRepo, memRepo, hfind, hact, hteam]
  refine ⟨h1, ?_, ?_⟩ <;> simp [h1]

/-- C6 witness: fixture user 6 is active and has no team. -/
theorem createPR_no_team_short_circuit_witness :
    svcCreatePR logRepo (wDB, []) gZero "solo" 6 =
      (.ok { pr := { id := wDB.nextPRID, title := "solo", authorID := 6,
                     status := .OPEN },
             reviewers := [] },
        ({ wDB with
            prs := wDB.prs ++ [{ id := wDB.nextPRID, title := "solo",
                                 authorID := 6, status := .OPEN }],
            nextPRID := wDB.nextPRID + 1 },
          ["GetUserByID", "CreatePR"]), gZero) ∧
    "ListActiveUsersInTeam" ∉ (svcCreatePR logRepo (wDB, []) gZero "solo" 6).2.1.2 ∧
    "AssignReviewers" ∉ (svcCreatePR logRepo (wDB, []) gZero "solo" 6).2.1.2 :=
  createPR_no_team_short_circuit wDB gZero "solo" 6 uF (by decide) rfl rfl

/-- C9 counterexample: in the already-merged branch of MergePR the Go code
discards the error of GetReviewersByPR (`revs, _ := ...`), so a storage
failure surfaced by a storage-contract call is neither fatal to the request
nor returned to the caller: the operation still reports success, with an
empty reviewer set. -/
theorem mergePR_swallows_reviewer_read_failure :
    (downRepo.getReviewersByPR () 2).1 = .error "down" ∧
    svcMergePR downRepo () gZero 2 = (.ok { pr := pr2, reviewers := [] }, (), gZero) :=
  ⟨rfl, rfl⟩

/-- C9 amended: for any storage implementation, a failure surfaced by a
storage-contract call after entity resolution is fatal to the current request
and is returned to the caller unchanged, at every such site of the three
operations: in CreatePR the teammate listing, the assignment write and the
reviewer re-read on both the sampled and the empty-pool path; in MergePR the
status write and the reviewer read of the open branch; in ReassignReviewer
the current-reviewer read, the teammate listing, the atomic replace and the
final reviewer re-read.  The two exceptions the code makes: failures of the
initial entity-resolution lookups are reported as BadRequest not-found
conditions rather than propagated opaquely, and a failure of the reviewer
re-read in the already-merged branch of MergePR is ignored, the call
succeeding with an empty reviewer set. -/
theorem storage_failure_propagation {σ : Type} (r : Repo σ) :
    (∀ (st st1 st2 st3 : σ) (g : Rng) (title : String) (aid tid : Nat)
      (author : User) (pr : PR) (e : RepoErr),
      r.getUserByID st aid = (.ok author, st1) → author.isActive = true →
      author.teamID = some tid →
      r.createPR st1 { id := 0, title := title, authorID := aid, status := .OPEN } =
        (.ok pr, st2) →
      r.listActiveUsersInTeam st2 tid = (.error e, st3) →
      svcCreatePR r st g title aid = (.error (.storage e), st3, g)) ∧
    (∀ (st st1 st2 st3 st4 : σ) (g : Rng) (title : String) (aid tid : Nat)
      (author : User) (pr : PR) (cands : List User) (e : RepoErr),
      r.getUserByID st aid = (.ok author, st1) → author.isActive = true →
      author.teamID = some tid →
      r.createPR st1 { id := 0, title := title, authorID := aid, status := .OPEN } =
        (.ok pr, st2) →
      r.listActiveUsersInTeam st2 tid = (.ok cands, st3) →
      filteredPool cands aid ≠ [] →
      r.assignReviewers st3 pr.id (sampledIDs g cands aid) = (.error e, st4) →
      svcCreatePR r st g title aid =
        (.error (.storage e), st4, postSampleRng g cands aid)) ∧
    (∀ (st st1 st2 st3 st4 st5 : σ) (g : Rng) (title : String) (aid tid : Nat)
      (author : User) (pr : PR) (cands : List User) (e : RepoErr),
      r.getUserByID st aid = (.ok author, st1) → author.isActive = true →
      author.teamID = some tid →
      r.createPR st1 { id := 0, title := title, authorID := aid, status := .OPEN } =
        (.ok pr, st2) →
      r.listActiveUsersInTeam st2 tid = (.ok cands, st3) →
      filteredPool cands aid ≠ [] →
      r.assignReviewers st3 pr.id (sampledIDs g cands aid) = (.ok (), st4) →
      r.getReviewersByPR st4 pr.id = (.error e, st5) →
      svcCreatePR r st g title aid =
        (.error (.storage e), st5, postSampleRng g cands aid)) ∧
    (∀ (st st1 st2 st3 st4 : σ) (g : Rng) (title : String) (aid tid : Nat)
      (author : User) (pr : PR) (cands : List User) (e : RepoErr),
      r.getUserByID st aid = (.ok author, st1) → author.isActive = true →
      author.teamID = some tid →
      r.createPR st1 { id := 0, title := title, authorID := aid, status := .OPEN } =
        (.ok pr, st2) →
      r.listActiveUsersInTeam st2 tid = (.ok cands, st3) →
      filteredPool cands aid = [] →
      r.getReviewersByPR st3 pr.id = (.error e, st4) →
      svcCreatePR r st g title aid = (.error (.storage e), st4, g)) ∧
    (∀ (st st1 st2 : σ) (g : Rng) (prID : Nat) (pr : PR) (e : RepoErr),
      r.getPRByID st prID = (.ok pr, st1) → pr.status = .OPEN →
      r.setPRStatus st1 prID .MERGED = (.error e, st2) →
      svcMergePR r st g prID = (.error (.storage e), st2, g)) ∧
    (∀ (st st1 st2 st3 : σ) (g : Rng) (prID : Nat) (pr : PR) (e : RepoErr),
      r.getPRByID st prID = (.ok pr, st1) → pr.status = .OPEN →
      r.setPRStatus st1 prID .MERGED = (.ok (), st2) →
      r.getReviewersByPR st2 prID = (.error e, st3) →
      svcMergePR r st g prID = (.error (.storage e), st3, g)) ∧
    (∀ (st st1 st2 st3 : σ) (g : Rng) (prID oldUserID tid : Nat) (pr : PR)
      (oldUser : User) (e : RepoErr),
      r.getPRByID st prID = (.ok pr, st1) → pr.status = .OPEN →
      r.getUserByID st1 oldUserID = (.ok oldUser, st2) →
      oldUser.teamID = some tid →
      r.getReviewersByPR st2 prID = (.error e, st3) →
      svcReassignReviewer r st g prID oldUserID = (.error (.storage e), st3, g)) ∧
    (∀ (st st1 st2 st3 st4 : σ) (g : Rng) (prID oldUserID tid : Nat) (pr : PR)
      (oldUser : User) (current : List User) (e : RepoErr),
      r.getPRByID st prID = (.ok pr, st1) → pr.status = .OPEN →
      r.getUserByID st1 oldUserID = (.ok oldUser, st2) →
      oldUser.teamID = some tid →
      r.getReviewersByPR st2 prID = (.ok current, st3) →
      current.any (fun u => u.id == oldUserID) = true →
      r.listActiveUsersInTeam st3 tid = (.error e, st4) →
      svcReassignReviewer r st g prID oldUserID = (.error (.storage e), st4, g)) ∧
    (∀ (st st1 st2 st3 st4 st5 : σ) (g : Rng) (prID oldUserID tid : Nat)
      (pr : PR) (oldUser : User) (current cands : List User) (e : RepoErr),
      r.getPRByID st prID = (.ok pr, st1) → pr.status = .OPEN →
      r.getUserByID st1 oldUserID = (.ok oldUser, st2) →
      oldUser.teamID = some tid →
      r.getReviewersByPR st2 prID = (.ok current, st3) →
      current.any (fun u => u.id == oldUserID) = true →
      r.listActiveUsersInTeam st3 tid = (.ok cands, st4) →
      replacePool cands current pr.authorID oldUserID ≠ [] →
      r.replaceReviewer st4 prID oldUserID
        (replacePick g cands current pr.authorID oldUserID) = (.error e, st5) →
      svcReassignReviewer r st g prID oldUserID =
        (.error (.storage e), st5,
          (rngIntn g (replacePool cands current pr.authorID oldUserID).length).2)) ∧
    (∀ (st st1 st2 st3 st4 st5 st6 : σ) (g : Rng) (prID oldUserID tid : Nat)
      (pr : PR) (oldUser : User) (current cands : List User) (e : RepoErr),
      r.getPRByID st prID = (.ok pr, st1) → pr.status = .OPEN →
      r.getUserByID st1 oldUserID = (.ok oldUser, st2) →
      oldUser.teamID = some tid →
      r.getReviewersByPR st2 prID = (.ok current, st3) →
      current.any (fun u => u.id == oldUserID) = true →
      r.listActiveUsersInTeam st3 tid = (.ok cands, st4) →
      replacePool cands current pr.authorID oldUserID ≠ [] →
      r.replaceReviewer st4 prID oldUserID
        (replacePick g cands current pr.authorID oldUserID) = (.ok (), st5) →
      r.getReviewersByPR st5 prID = (.error e, st6) →
      svcReassignReviewer r st g prID oldUserID =
        (.error (.storage e), st6,
          (rngIntn g (replacePool cands current pr.authorID oldUserID).length).2)) ∧
    (∀ (st st1 : σ) (g : Rng) (title : String) (aid : Nat) (e : RepoErr),
      r.getUserByID st aid = (.error e, st1) →
      svcCreatePR r st g title aid =
        (.error (.wrapped .badRequest "author not found"), st1, g)) ∧
    (∀ (st st1 st2 : σ) (g : Rng) (prID : Nat) (pr : PR) (e : RepoErr),
      r.getPRByID st prID = (.ok pr, st1) → pr.status = .MERGED →
      r.getReviewersByPR st1 prID = (.error e, st2) →
      svcMergePR r st g prID = (.ok { pr := pr, reviewers := [] }, st2, g)) := by
  refine ⟨?_, ?_, ?_, ?_, ?_, ?_, ?_, ?_, ?_, ?_, ?_, ?_⟩
  · intro st st1 st2 st3 g title aid tid author pr e h1 h2 h3 h4 h5
    simp [svcCreatePR, h1, h2, h3, h4, h5]
  · intro st st1 st2 st3 st4 g title aid tid author pr cands e h1 h2 h3 h4 h5 hne h6
    have hlen : 0 < (cands.filter (fun u => u.id != aid)).length := by
      rw [filteredPool] at hne
      exact List.length_pos.mpr hne
    simp only [sampledIDs, postSampleRng, targetCount, filteredPool] at h6 ⊢
    simp only [svcCreatePR, h1, h2, h3, h4, h5, Bool.not_true, Bool.false_eq_true,
      if_false]
    rw [if_pos (show (if (cands.filter (fun u => u.id != aid)).length < 2 then
      (cands.filter (fun u => u.id != aid)).length else 2) > 0 by split <;> omega)]
    simp only [h6]
  · intro st st1 st2 st3 st4 st5 g title aid tid author pr cands e
      h1 h2 h3 h4 h5 hne h6 h7
    have hlen : 0 < (cands.filter (fun u => u.id != aid)).length := by
      rw [filteredPool] at hne
      exact List.length_pos.mpr hne
    simp only [sampledIDs, postSampleRng, targetCount, filteredPool] at h6 ⊢
    simp only [svcCreatePR, h1, h2, h3, h4, h5, Bool.not_true, Bool.false_eq_true,
      if_false]
    rw [if_pos (show (if (cands.filter (fun u => u.id != aid)).length < 2 then
      (cands.filter (fun u => u.id != aid)).length else 2) > 0 by split <;> omega)]
    simp only [h6, h7]
  · intro st st1 st2 st3 st4 g title aid tid author pr cands e h1 h2 h3 h4 h5 hemp h6
    have h0 : (cands.filter (fun u => u.id != aid)).length = 0 := by
      rw [filteredPool] at hemp
      simp [hemp]
    simp only [svcCreatePR, h1, h2, h3, h4, h5, Bool.not_true, Bool.false_eq_true,
      if_false]
    rw [if_neg (show ¬((if (cands.filter (fun u => u.id != aid)).length < 2 then
      (cands.filter (fun u => u.id != aid)).length else 2) > 0) by rw [h0]; simp)]
    simp only [h6]
  · intro st st1 st2 g prID pr e h1 h2 h3
    simp [svcMergePR, h1, h2, h3]
  · intro st st1 st2 st3 g prID pr e h1 h2 h3 h4
    simp [svcMergePR, h1, h2, h3, h4]
  · intro st st1 st2 st3 g prID oldUserID tid pr oldUser e h1 h2 h3 h4 h5
    simp [svcReassignReviewer, h1, h2, h3, h4, h5]
  · intro st st1 st2 st3 st4 g prID oldUserID tid pr oldUser current e
      h1 h2 h3 h4 h5 h6 h7
    simp [svcReassignReviewer, h1, h2, h3, h4, h5, h6, h7]
  · intro st st1 st2 st3 st4 st5 g prID oldUserID tid pr oldUser current cands e
      h1 h2 h3 h4 h5 h6 h7 h8 h9
    have hlen0 : ¬((cands.filter (fun u => u.id != pr.authorID &&
        u.id != oldUserID &&
        !(current.any (fun w => w.id == u.id)))).length = 0) := by
      rw [replacePool] at h8
      intro hc
      exact h8 (List.length_eq_zero.mp hc)
    simp only [replacePick, replacePool] at h9
    simp only [svcReassignReviewer, h1, h2, h3, h4, h5, h6, h7, Bool.not_true,
      Bool.false_eq_true, if_false, reduceCtorEq]
    rw [if_neg hlen0]
    simp only [h9, replacePool]
  · intro st st1 st2 st3 st4 st5 st6 g prID oldUserID tid pr oldUser current cands e
      h1 h2 h3 h4 h5 h6 h7 h8 h9 h10
    have hlen0 : ¬((cands.filter (fun u => u.id != pr.authorID &&
        u.id != oldUserID &&
        !(current.any (fun w => w.id == u.id)))).length = 0) := by
      rw [replacePool] at h8
      intro hc
      exact h8 (List.length_eq_zero.mp hc)
    simp only [replacePick, replacePool] at h9
    simp only [svcReassignReviewer, h1, h2, h3, h4, h5, h6, h7, Bool.not_true,
      Bool.false_eq_true, if_false, reduceCtorEq]
    rw [if_neg hlen0]
    simp only [h9, h10, replacePool]
  · intro st st1 g title aid e h1
    simp [svcCreatePR, h1]
  · intro st st1 st2 g prID pr e h1 h2 h3
    simp [svcMergePR, h1, h2, h3]

/-- C9 amended witness: every propagation clause exercised on a concrete
storage implementation failing at exactly that call site. -/
theorem storage_failure_propagation_witness :
    svcCreatePR listDownRepo () gZero "t" 1 = (.error (.storage "down"), (), gZero) ∧
    svcCreatePR assignDownRepo () gZero "t" 1 =
      (.error (.storage "down"), (), postSampleRng gZero [uA, uB, uC, uD] 1) ∧
    svcCreatePR revDownRepo () gZero "t" 1 =
      (.error (.storage "down"), (), postSampleRng gZero [uA, uB, uC, uD] 1) ∧
    svcCreatePR soloTeamRepo () gZero "t" 1 = (.error (.storage "down"), (), gZero) ∧
    svcMergePR listDownRepo () gZero 1 = (.error (.storage "down"), (), gZero) ∧
    svcMergePR revDownRepo () gZero 1 = (.error (.storage "down"), (), gZero) ∧
    svcReassignReviewer revDownRepo () gZero 1 2 =
      (.error (.storage "down"), (), gZero) ∧
    svcReassignReviewer reassignListDownRepo () gZero 1 2 =
      (.error (.storage "down"), (), gZero) ∧
    svcReassignReviewer replaceDownRepo () gZero 1 2 =
      (.error (.storage "down"), (), (rngIntn gZero 1).2) ∧
    svcReassignReviewer flakyRevRepo 0 gZero 1 2 =
      (.error (.storage "down"), 2, (rngIntn gZero 1).2) ∧
    svcCreatePR userDownRepo () gZero "t" 1 =
      (.error (.wrapped .badRequest "author not found"), (), gZero) ∧
    svcMergePR downRepo () gZero 2 = (.ok { pr := pr2, reviewers := [] }, (), gZero) := by
  refine ⟨?_, ?_, ?_, ?_, ?_, ?_, ?_, ?_, ?_, ?_, ?_, ?_⟩
  · exact (storage_failure_propagation listDownRepo).1 () () () () gZero "t" 1 1 uA
      { id := 1, title := "t", authorID := 1, status := .OPEN } "down" rfl rfl rfl rfl rfl
  · exact (storage_failure_propagation assignDownRepo).2.1 () () () () () gZero "t" 1 1
      uA { id := 1, title := "t", authorID := 1, status := .OPEN } [uA, uB, uC, uD]
      "down" rfl rfl rfl rfl rfl (by decide) rfl
  · exact (storage_failure_propagation revDownRepo).2.2.1 () () () () () () gZero "t" 1 1
      uA { id := 1, title := "t", authorID := 1, status := .OPEN } [uA, uB, uC, uD]
      "down" rfl rfl rfl rfl rfl (by decide) rfl rfl
  · exact (storage_failure_propagation soloTeamRepo).2.2.2.1 () () () () () gZero "t" 1 1
      uA { id := 1, title := "t", authorID := 1, status := .OPEN } [uA]
      "down" rfl rfl rfl rfl rfl (by decide) rfl
  · exact (storage_failure_propagation listDownRepo).2.2.2.2.1 () () () gZero 1 pr1
      "down" rfl rfl rfl
  · exact (storage_failure_propagation revDownRepo).2.2.2.2.2.1 () () () () gZero 1 pr1
      "down" rfl rfl rfl rfl
  · exact (storage_failure_propagation revDownRepo).2.2.2.2.2.2.1 () () () () gZero 1 2 1
      pr1 uA "down" rfl rfl rfl rfl rfl
  · exact (storage_failure_propagation reassignListDownRepo).2.2.2.2.2.2.2.1
      () () () () () gZero 1 2 1 pr1 uB [uB, uC] "down" rfl rfl rfl rfl rfl
      (by decide) rfl
  · exact (storage_failure_propagation replaceDownRepo).2.2.2.2.2.2.2.2.1
      () () () () () () gZero 1 2 1 pr1 uB [uB, uC] [uA, uB, uC, uD] "down"
      rfl rfl rfl rfl rfl (by decide) rfl (by decide) rfl
  · exact (storage_failure_propagation flakyRevRepo).2.2.2.2.2.2.2.2.2.1
      0 0 0 1 1 1 2 gZero 1 2 1 pr1 uB [uB, uC] [uA, uB, uC, uD] "down"
      rfl rfl rfl rfl rfl (by decide) rfl (by decide) rfl rfl
  · exact (storage_failure_propagation userDownRepo).2.2.2.2.2.2.2.2.2.2.1
      () () gZero "t" 1 "down" rfl
  · exact (storage_failure_propagation downRepo).2.2.2.2.2.2.2.2.2.2.2
      () () () gZero 2 pr2 "down" rfl rfl rfl

end PRM
